import Mathlib

/-!
A shallow embedding, in Lean 4, of the learning-store core of the
`opentell` repository (the store module, the cross-session analyzer, the
consolidator gate in `skill-writer.js`, and the transcript reader), together
with theorems settling the frozen claims about it.

JavaScript numbers are modelled as rationals (`ℚ`), timestamps as
millisecond rationals, and JS truthiness of strings and numbers is made
explicit through small helper functions.  String-level operations
(`toLowerCase`, `split`, `trim`, the fixed regular expressions of the
store) are translated into executable Lean functions over `List Char`.
-/

/-- JS `\s` whitespace class (the characters that occur in practice). -/
def jsIsWs (c : Char) : Bool :=
  c = ' ' || c = '\t' || c = '\n' || c = '\r' || c = Char.ofNat 11 || c = Char.ofNat 12

/-- JS truthiness of an optional string (`undefined` and `""` are falsy). -/
def jsTruthyStr : Option String → Bool
  | none => false
  | some s => s ≠ ""

/-- JS `a || b` on optional strings. -/
def jsOrStr (a b : Option String) : Option String :=
  if jsTruthyStr a then a else b

/-- JS `a || d` where `a` is an optional string and `d` a string default. -/
def jsStrOrD (a : Option String) (d : String) : String :=
  match a with
  | none => d
  | some s => if s = "" then d else s

/-- JS `a || d` where `a` is an optional number (`0` is falsy). -/
def jsOrQ (a : Option ℚ) (d : ℚ) : ℚ :=
  match a with
  | none => d
  | some q => if q = 0 then d else q

/-- Strip a literal character sequence from the front of a character list. -/
def stripLitChars : List Char → List Char → Option (List Char)
  | [], cs => some cs
  | _, [] => none
  | l :: ls, c :: cs => if c = l then stripLitChars ls cs else none

/-- Does `needle` occur as a contiguous substring of `hay`? -/
def containsLitL (needle : List Char) : List Char → Bool
  | [] => (stripLitChars needle []).isSome
  | c :: cs => (stripLitChars needle (c :: cs)).isSome || containsLitL needle cs

/-- Substring test on strings, JS `String.prototype.includes`. -/
def containsLit (needle : String) (hay : List Char) : Bool :=
  containsLitL needle.toList hay

/-- Split a character list at maximal runs of separator characters, JS
`s.split(/sep+/)`: leading or trailing runs contribute empty pieces. -/
def splitRunsR (p : Char → Bool) : List Char → List (List Char)
  | [] => [[]]
  | c :: cs =>
    let rest := splitRunsR p cs
    if p c then
      match cs with
      | c2 :: _ => if p c2 then rest else [] :: rest
      | [] => [] :: rest
    else
      match rest with
      | t :: ts => (c :: t) :: ts
      | [] => [[c]]

/-- JS `s.split(/\s+/)`. -/
def splitWs (s : String) : List String :=
  (splitRunsR jsIsWs s.toList).map String.mk

/-- JS `s.replace(/\s+/g, " ")`. -/
def collapseWs (cs : List Char) : List Char :=
  (String.intercalate " " ((splitRunsR jsIsWs cs).map String.mk)).toList

/-- JS `trim` on a character list. -/
def jsTrimL (cs : List Char) : List Char :=
  ((cs.dropWhile jsIsWs).reverse.dropWhile jsIsWs).reverse

/-- JS `trim` on a string. -/
def jsTrimStr (s : String) : String :=
  String.mk (jsTrimL s.toList)

/-- JS regex word character (`\w`): `[A-Za-z0-9_]`. -/
def isWordChar (c : Char) : Bool :=
  ('a' ≤ c && c ≤ 'z') || ('A' ≤ c && c ≤ 'Z') || ('0' ≤ c && c ≤ '9') || c = '_'

/-- Does `needle` match at the head of `cs` with a `\b` boundary on both
sides?  `prevW` tells whether the character just before `cs` is a word
character (`false` at the start of the string). -/
def wbAt (needle : List Char) (prevW : Bool) (cs : List Char) : Bool :=
  match stripLitChars needle cs with
  | none => false
  | some rest =>
    let fw := match needle with | [] => false | c :: _ => isWordChar c
    let lw := match needle.getLast? with | none => false | some c => isWordChar c
    let nextw := match rest with | [] => false | c :: _ => isWordChar c
    (prevW ≠ fw) && (lw ≠ nextw)

/-- Word-bounded occurrence anywhere in the list: JS `/\bX\b/.test(s)`. -/
def wbOccAux (needle : List Char) (prevW : Bool) : List Char → Bool
  | [] => false
  | c :: cs => wbAt needle prevW (c :: cs) || wbOccAux needle (isWordChar c) cs

/-- JS `new RegExp("\\b" ++ needle ++ "\\b").test(hay)` for a plain needle. -/
def wbOcc (needle : List Char) (hay : List Char) : Bool :=
  wbOccAux needle false hay

/-- Search for `b` starting at any position of the list that is reachable
without crossing a newline (the tail of a `.*b` regex, `.` not matching
`\n`). -/
def searchFromNoNl (b : String) : List Char → Bool
  | [] => b = ""
  | c :: cs =>
    (stripLitChars b.toList (c :: cs)).isSome || (c ≠ '\n' && searchFromNoNl b cs)

/-- JS `/a.*b/.test(hay)` (`.` does not match newline). -/
def seqGapAux (a b : String) : List Char → Bool
  | [] => false
  | c :: cs =>
    (match stripLitChars a.toList (c :: cs) with
     | some rest => searchFromNoNl b rest
     | none => false) || seqGapAux a b cs

/-- JS `/a.*b/.test(hay)`. -/
def seqGap (a b : String) (hay : List Char) : Bool :=
  seqGapAux a b hay

/-- JS `/a.?b/.test(hay)` at one position: `a`, an optional single
non-newline character, then `b`. -/
def optCharAt (a b : String) (cs : List Char) : Bool :=
  match stripLitChars a.toList cs with
  | none => false
  | some rest =>
    (stripLitChars b.toList rest).isSome ||
    (match rest with
     | c :: r => c ≠ '\n' && (stripLitChars b.toList r).isSome
     | [] => false)

/-- JS `/a.?b/.test(hay)`. -/
def optCharAux (a b : String) : List Char → Bool
  | [] => optCharAt a b []
  | c :: cs => optCharAt a b (c :: cs) || optCharAux a b cs

/-- JS `/a.?b/.test(hay)`. -/
def optChar (a b : String) (hay : List Char) : Bool :=
  optCharAux a b hay

/-- After a word-bounded occurrence of some alternative, search (across a
newline-free gap, `.*`) for a position where `m` matches; `m` receives the
word-character status of the previous character. -/
def searchNoNlP (m : Bool → List Char → Bool) (prevW : Bool) : List Char → Bool
  | [] => m prevW []
  | c :: cs => m prevW (c :: cs) || (c ≠ '\n' && searchNoNlP m (isWordChar c) cs)

/-- JS `/\bA\b.*\bB\b/.test(hay)`. -/
def wbSeqGapAux (a b : List Char) (prevW : Bool) : List Char → Bool
  | [] => false
  | c :: cs =>
    (if wbAt a prevW (c :: cs) then
       match stripLitChars a (c :: cs) with
       | some rest =>
         searchNoNlP (fun pw cs2 => wbAt b pw cs2)
           (match a.getLast? with | none => prevW | some lc => isWordChar lc) rest
       | none => false
     else false) || wbSeqGapAux a b (isWordChar c) cs

/-- JS `/\bA\b.*\bB\b/.test(hay)`. -/
def wbSeqGap (a b : String) (hay : List Char) : Bool :=
  wbSeqGapAux a.toList b.toList false hay

/-- Does any of the listed literals occur (regex alternation of plain
literals)? -/
def containsAny (ns : List String) (hay : List Char) : Bool :=
  ns.any (fun n => containsLit n hay)

-- ─── store.js string helpers ──────────────────────────────────────────

/-- The em-dash used by `extractCore`’s second replacement. -/
def emDash : Char := '—'

/-- No newline occurs in the list (needed because `.` does not match `\n`
and the `$` anchor only matches at the very end of the string). -/
def noNl (cs : List Char) : Bool := cs.all (· ≠ '\n')

/-- Position of the first em-dash whose suffix is newline-free, i.e. the
first position at which `/\s*—\s*.*$/` can match (up to the leading
whitespace run, handled by the caller). -/
def findDashPos : List Char → Option Nat
  | [] => none
  | c :: cs =>
    if c = emDash && noNl cs then some 0 else (findDashPos cs).map (· + 1)

/-- JS `s.replace(/\s*—\s*.*$/, "")`: cut at the first matchable em-dash,
extending left over the whitespace run swallowed by the leading `\s*`. -/
def stripEmDashTail (cs : List Char) : List Char :=
  match findDashPos cs with
  | none => cs
  | some p =>
    let pre := cs.take p
    let wsrun := (pre.reverse.takeWhile jsIsWs).length
    cs.take (p - wsrun)

/-- The alternatives of `extractCore`’s leading-prefix regex, in source
order.  Each is a stem, a flag for an optional `s?`, and a literal tail.
`uses?` is `("use", true, "")`, `designs? ` is `("design", true, " ")`. -/
def corePrefixAlts : List (String × Bool × String) :=
  [("use", true, ""), ("prefer", true, ""), ("team use", true, ""),
   ("user prefer", true, " to"), ("project convention:", false, ""),
   ("avoid", true, ""), ("files go in", false, ""), ("thinks in", false, ""),
   ("design", true, " "), ("value", true, " "), ("expect", true, " "),
   ("code isn\x27t done until", false, "")]

/-- Try one alternative at the start of the list; the greedy `s?` tries the
variant with `s` first and backtracks. -/
def tryAlt (stem : String) (optS : Bool) (tail : String) (cs : List Char) :
    Option (List Char) :=
  match stripLitChars stem.toList cs with
  | none => none
  | some r1 =>
    if optS then
      match stripLitChars ('s' :: tail.toList) r1 with
      | some r2 => some r2
      | none => stripLitChars tail.toList r1
    else stripLitChars tail.toList r1

/-- JS `s.replace(/^(uses?|prefers?|…)\s*/i, "")` (everything is already
lowercased by the caller). -/
def stripCoreLead (cs : List Char) : List Char :=
  match corePrefixAlts.findSome? (fun a => tryAlt a.1 a.2.1 a.2.2 cs) with
  | some rest => rest.dropWhile jsIsWs
  | none => cs

/-- Source `extractCore` from store.js: lowercase, strip a conventional leading
verb, strip the explanation after an em-dash, collapse whitespace, trim. -/
def extractCore (text : String) : String :=
  String.mk (jsTrimL (collapseWs (stripEmDashTail (stripCoreLead
    text.toLower.toList))))

/-- Source `extractPrefix` from store.js (the leading-verb tag). -/
def extractPrefixTag (text : String) : String :=
  let lower := jsTrimStr text.toLower
  if lower.startsWith "avoids" || lower.startsWith "avoid" then "avoids"
  else if lower.startsWith "uses" || lower.startsWith "use" then "uses"
  else if lower.startsWith "prefers" || lower.startsWith "prefer" then "prefers"
  else "other"

/-- Source `prefixContradicts` from store.js. -/
def prefixContradicts (a b : String) : Bool :=
  if a = b then false
  else decide ((a = "avoids" ∧ b = "uses") ∨ (a = "uses" ∧ b = "avoids"))

/-- Source `similarity` from store.js: Jaccard similarity of whitespace-split word
sets. -/
def similarity (a b : String) : ℚ :=
  let setA := (splitWs a).eraseDups
  let setB := (splitWs b).eraseDups
  let inter := (setA.filter (fun w => setB.contains w)).length
  let union := ((setA ++ setB).eraseDups).length
  if union = 0 then 0 else (inter : ℚ) / (union : ℚ)

/-- Source `DEPTH_ORDER` from store.js, with the JS `|| 0` fallback inlined. -/
def depthOrder (a : String) : Nat :=
  if a = "THINKING_PATTERN" then 5
  else if a = "DESIGN_PRINCIPLE" then 4
  else if a = "QUALITY_STANDARD" then 3
  else if a = "BEHAVIORAL_GAP" then 2
  else if a = "PREFERENCE" then 1
  else 0

/-- Source `isDeeper` from store.js. -/
def isDeeper (a b : String) : Bool :=
  depthOrder a > depthOrder b

/-- Source `TOOL_CATEGORIES` from store.js. -/
def TOOL_CATEGORIES : List (String × String) :=
  [("npm", "package_manager"), ("pnpm", "package_manager"),
   ("yarn", "package_manager"), ("bun", "package_manager"),
   ("jest", "test_framework"), ("vitest", "test_framework"),
   ("mocha", "test_framework"), ("pytest", "test_framework"),
   ("playwright", "e2e_testing"), ("cypress", "e2e_testing"),
   ("eslint", "linter"), ("biome", "linter"), ("prettier", "formatter"),
   ("ruff", "linter"), ("black", "formatter"),
   ("react", "ui_framework"), ("vue", "ui_framework"),
   ("svelte", "ui_framework"), ("angular", "ui_framework"),
   ("nextjs", "meta_framework"), ("next.js", "meta_framework"),
   ("nuxt", "meta_framework"), ("remix", "meta_framework"),
   ("astro", "meta_framework"),
   ("express", "server_framework"), ("hono", "server_framework"),
   ("fastapi", "server_framework"), ("flask", "server_framework"),
   ("django", "server_framework"),
   ("supabase", "backend_service"), ("firebase", "backend_service"),
   ("postgres", "database"), ("mysql", "database"), ("sqlite", "database"),
   ("mongo", "database"),
   ("prisma", "orm"), ("drizzle", "orm"), ("typeorm", "orm"),
   ("tailwind", "css_framework"), ("bootstrap", "css_framework")]

/-- Separator class of `identifyTool`’s split regex `[\s,./]+`. -/
def toolSep (c : Char) : Bool :=
  jsIsWs c || c = ',' || c = '.' || c = '/'

/-- The character filter of `word.toLowerCase().replace(/[^a-z0-9.]/g, "")`. -/
def isLowerAlnumDot (c : Char) : Bool :=
  ('a' ≤ c && c ≤ 'z') || ('0' ≤ c && c ≤ '9') || c = '.'

/-- Source `identifyTool` from store.js. -/
def identifyTool (text : String) : Option (String × String) :=
  let words := (splitRunsR toolSep text.toList).map String.mk
  words.findSome? (fun w =>
    let clean := String.mk (w.toLower.toList.filter isLowerAlnumDot)
    (TOOL_CATEGORIES.lookup clean).map (fun cat => (clean, cat)))

-- ─── STYLE_OPPOSITES from store.js ────────────────────────────────────
-- Each JS regex of the fixed table is translated into an executable Bool
-- predicate.  `(the )?` groups sitting under a `.*` are absorbed by the
-- gap and therefore omitted; `X|Xy` alternations are kept as written.

/-- JS regex `/concise|shorter|brief|less verbose|minimal/` -/
def styleP1 (h : List Char) : Bool :=
  containsAny ["concise", "shorter", "brief", "less verbose", "minimal"] h

/-- JS regex `/verbose|detailed|thorough|comprehensive|more explanation/` -/
def styleP2 (h : List Char) : Bool :=
  containsAny ["verbose", "detailed", "thorough", "comprehensive",
               "more explanation"] h

/-- JS regex `/code.?first|just.*(the )?code|skip.*(the )?explanation/` -/
def styleP3 (h : List Char) : Bool :=
  optChar "code" "first" h || seqGap "just" "code" h ||
  seqGap "skip" "explanation" h

/-- JS regex `/explain|walk.*through|detailed explanation/` -/
def styleP4 (h : List Char) : Bool :=
  containsLit "explain" h || seqGap "walk" "through" h ||
  containsLit "detailed explanation" h

/-- JS regex `/minimal.*comment|no comment|skip.*comment|fewer comment/` -/
def styleP5 (h : List Char) : Bool :=
  seqGap "minimal" "comment" h || containsLit "no comment" h ||
  seqGap "skip" "comment" h || containsLit "fewer comment" h

/-- JS regex `/add.*comment|more comment|well.?commented|document/` -/
def styleP6 (h : List Char) : Bool :=
  seqGap "add" "comment" h || containsLit "more comment" h ||
  optChar "well" "commented" h || containsLit "document" h

/-- JS regex `/functional.*component/` -/
def styleP7 (h : List Char) : Bool := seqGap "functional" "component" h

/-- JS regex `/class.*component|class.?based/` -/
def styleP8 (h : List Char) : Bool :=
  seqGap "class" "component" h || optChar "class" "based" h

/-- JS regex `/named.*export/` -/
def styleP9 (h : List Char) : Bool := seqGap "named" "export" h

/-- JS regex `/default.*export/` -/
def styleP10 (h : List Char) : Bool := seqGap "default" "export" h

/-- JS regex `/strict.*typ|add.*type/` -/
def styleP11 (h : List Char) : Bool :=
  seqGap "strict" "typ" h || seqGap "add" "type" h

/-- JS regex `/avoid.*type|no.*type|skip.*type/` -/
def styleP12 (h : List Char) : Bool :=
  seqGap "avoid" "type" h || seqGap "no" "type" h || seqGap "skip" "type" h

/-- JS regex `/simplicity|keep.*simple|don’t over.?engineer/` -/
def styleP13 (h : List Char) : Bool :=
  containsLit "simplicity" h || seqGap "keep" "simple" h ||
  optChar "don\x27t over" "engineer" h

/-- JS regex `/plan.*ahead|design.*scale|future.?proof/` -/
def styleP14 (h : List Char) : Bool :=
  seqGap "plan" "ahead" h || seqGap "design" "scale" h ||
  optChar "future" "proof" h

/-- JS regex `/\bprototypes?\b.*\bfirst\b|rough.*version|\bmvp\b/` -/
def styleP15 (h : List Char) : Bool :=
  wbSeqGap "prototypes" "first" h || wbSeqGap "prototype" "first" h ||
  seqGap "rough" "version" h || wbOcc "mvp".toList h

/-- Matcher for `before\b` at a position (used by `styleP16`). -/
def beforeWbAt (cs : List Char) : Bool :=
  match stripLitChars "before".toList cs with
  | none => false
  | some r => match r with | [] => true | c :: _ => ¬ isWordChar c

/-- Matcher for the group `(?:up ?front|before\b)` at a position. -/
def upFrontOrBeforeAt (_pw : Bool) (cs : List Char) : Bool :=
  (stripLitChars "upfront".toList cs).isSome ||
  (stripLitChars "up front".toList cs).isSome || beforeWbAt cs

/-- JS regex `/\bdesigns?\b.*(?:up ?front|before\b)/` -/
def designsUpFrontAux (a : List Char) (prevW : Bool) : List Char → Bool
  | [] => false
  | c :: cs =>
    (if wbAt a prevW (c :: cs) then
       match stripLitChars a (c :: cs) with
       | some rest =>
         searchNoNlP upFrontOrBeforeAt
           (match a.getLast? with | none => prevW | some lc => isWordChar lc) rest
       | none => false
     else false) || designsUpFrontAux a (isWordChar c) cs

/-- JS regex `/\bplans?\b.*\bfirst\b|\bdesigns?\b.*(?:up ?front|before\b)|\bspec\b.*\bfirst\b/` -/
def styleP16 (h : List Char) : Bool :=
  wbSeqGap "plans" "first" h || wbSeqGap "plan" "first" h ||
  designsUpFrontAux "designs".toList false h ||
  designsUpFrontAux "design".toList false h ||
  wbSeqGap "spec" "first" h

/-- The `STYLE_OPPOSITES` pair table. -/
def STYLE_OPPOSITES : List ((List Char → Bool) × (List Char → Bool)) :=
  [(styleP1, styleP2), (styleP3, styleP4), (styleP5, styleP6),
   (styleP7, styleP8), (styleP9, styleP10), (styleP11, styleP12),
   (styleP13, styleP14), (styleP15, styleP16)]

/-- Source `areStyleOpposites` from store.js. -/
def areStyleOpposites (a b : String) : Bool :=
  STYLE_OPPOSITES.any (fun pq =>
    (pq.1 a.toList && pq.2 b.toList) || (pq.2 a.toList && pq.1 b.toList))

-- ─── findContradictions helpers ───────────────────────────────────────

/-- JS regex `/instead of\s+(\S+)/` at the head of the list: the literal, at least
one whitespace character, then the greedy non-whitespace capture. -/
def matchInsteadAt (cs : List Char) : Option (List Char) :=
  match stripLitChars "instead of".toList cs with
  | none => none
  | some r =>
    let r1 := r.dropWhile jsIsWs
    if r1.length = r.length then none
    else
      let cap := r1.takeWhile (fun c => ¬ jsIsWs c)
      if cap.isEmpty then none else some cap

/-- Leftmost match of `/instead of\s+(\S+)/`, returning the capture. -/
def findInstead : List Char → Option (List Char)
  | [] => none
  | c :: cs =>
    match matchInsteadAt (c :: cs) with
    | some cap => some cap
    | none => findInstead cs

/-- JS `s.replace(/[.,]$/, "")` on the capture. -/
def dropTrailingPunct (cs : List Char) : List Char :=
  match cs.getLast? with
  | some '.' => cs.dropLast
  | some ',' => cs.dropLast
  | _ => cs

/-- The tail `\s+(.+)` of the avoids regex: at least one whitespace, then a
greedy non-empty capture of non-newline characters. -/
def avoidTail (r : List Char) : Option (List Char) :=
  let r1 := r.dropWhile jsIsWs
  if r1.length = r.length then none
  else
    let cap := r1.takeWhile (· ≠ '\n')
    if cap.isEmpty then none else some cap

/-- JS regex `/avoids?\s+(.+)/` at the head of the list (greedy `s?` backtracks). -/
def matchAvoidAt (cs : List Char) : Option (List Char) :=
  match stripLitChars "avoid".toList cs with
  | none => none
  | some r =>
    let try1 := match r with
      | 's' :: r2 => avoidTail r2
      | _ => none
    match try1 with
    | some cap => some cap
    | none => avoidTail r

/-- Leftmost match of `/avoids?\s+(.+)/`, returning the capture. -/
def findAvoid : List Char → Option (List Char)
  | [] => none
  | c :: cs =>
    match matchAvoidAt (c :: cs) with
    | some cap => some cap
    | none => findAvoid cs

-- ─── Data model ───────────────────────────────────────────────────────

/-- One record of a learning’s bounded evidence ring.  Observation-layer
entries use the `observation` field; detector entries use the first three.
Timestamps are ISO strings in the JSON document; they are modelled as
millisecond rationals. -/
structure Evidence where
  claude_said : String := ""
  user_said : String := ""
  error_context : String := ""
  observation : String := ""
  detected_at : Option ℚ := none
  detection_method : String := ""
deriving DecidableEq

/-- A persisted learning row.  Optional JSON keys are `Option` fields; the
JS-absent boolean flags default to `false`. -/
structure Learning where
  id : String
  text : String
  confidence : ℚ
  evidence_count : Nat
  scope : String := "repo"
  scope_key : String := ""
  classification : String := "PREFERENCE"
  area : String := "general"
  areas : Option (List String) := none
  first_seen : ℚ := 0
  last_reinforced : ℚ := 0
  decay_weight : ℚ := 1
  archived : Bool := false
  archived_reason : Option String := none
  archived_at : Option ℚ := none
  promoted : Bool := false
  promoted_at : Option ℚ := none
  inferred : Bool := false
  detection_method : String := "regex"
  evidence : List Evidence := []
  observation_corroborations : Nat := 0
  observation_type : String := ""
  aligned_with : Option String := none
  aligned_at : Option ℚ := none
  accepted_at : Option ℚ := none
  session_ids : Option (List String) := none
  touched_this_session : Bool := false
  cross_session_boosted : Bool := false
  cross_session_count : Nat := 0
  classification_upgraded_from : Option String := none
  deep_pattern_upgrade : Bool := false
  consolidated_from_group : Option String := none
deriving DecidableEq

/-- The `meta` object of learnings.json. -/
structure Meta where
  total_sessions : Nat := 0
  last_consolidation : Option String := none
  consolidation_session : Option Nat := none
deriving DecidableEq

/-- The persisted learning store (`loadLearnings`/`saveLearnings` round a
single JSON document; the embedding passes the document explicitly). -/
structure Store where
  learnings : List Learning
  meta : Meta
deriving DecidableEq

/-- The empty store created on first load. -/
def emptyStore : Store := ⟨[], {}⟩

/-- A detector signal passed to `addCandidate` (all fields beyond `text`
may be absent). -/
structure EvidenceInput where
  claude_said : Option String := none
  user_said : Option String := none
  error_context : Option String := none
deriving DecidableEq

/-- Input of `addCandidate`. -/
structure Signal where
  text : String
  confidence : Option ℚ := none
  classification : Option String := none
  certainty : Option String := none
  area : Option String := none
  scope : Option String := none
  scope_key : Option String := none
  detection_method : Option String := none
  evidence : Option EvidenceInput := none
deriving DecidableEq

/-- Input of `addObservation`. -/
structure Obs where
  text : String
  confidence : Option ℚ := none
  scope : Option String := none
  classification : Option String := none
  area : Option String := none
  observation_type : Option String := none
  evidence_observation : Option String := none
deriving DecidableEq

-- ─── Store constants ──────────────────────────────────────────────────

/-- Source `ACTIVATION_THRESHOLD` -/
def ACTIVATION_THRESHOLD : ℚ := 45/100

/-- Source `PROMOTION_THRESHOLD` -/
def PROMOTION_THRESHOLD : ℚ := 80/100

/-- Source `PROMOTION_MIN_EVIDENCE` -/
def PROMOTION_MIN_EVIDENCE : Nat := 4

/-- Source `ARCHIVE_THRESHOLD` -/
def ARCHIVE_THRESHOLD : ℚ := 15/100

/-- Source `START_CONFIDENCE`: `(high, low)` per classification key. -/
def START_CONFIDENCE (cls : String) : Option (ℚ × ℚ) :=
  if cls = "THINKING_PATTERN" then some (38/100, 28/100)
  else if cls = "DESIGN_PRINCIPLE" then some (38/100, 28/100)
  else if cls = "QUALITY_STANDARD" then some (35/100, 25/100)
  else if cls = "PREFERENCE" then some (35/100, 25/100)
  else if cls = "BEHAVIORAL_GAP" then some (30/100, 20/100)
  else none

/-- JS code `const startConf = learning.confidence || confMap[certainty] || confMap.high`
with `confMap = START_CONFIDENCE[cls] || START_CONFIDENCE.PREFERENCE`,
`cls = learning.classification || "PREFERENCE"`,
`certainty = learning.certainty || "high"`. -/
def startingConfidence (x : Signal) : ℚ :=
  let cls := jsStrOrD x.classification "PREFERENCE"
  let certainty := jsStrOrD x.certainty "high"
  let confMap := (START_CONFIDENCE cls).getD (35/100, 25/100)
  let fromMap : Option ℚ :=
    if certainty = "high" then some confMap.1
    else if certainty = "low" then some confMap.2
    else none
  jsOrQ x.confidence (jsOrQ fromMap confMap.1)

-- ─── Mutation helpers ─────────────────────────────────────────────────

/-- Apply `f` to the first element satisfying `p` (JS `Array.find` followed
by in-place mutation of the found object). -/
def updateFirst (p : Learning → Bool) (f : Learning → Learning) :
    List Learning → List Learning
  | [] => []
  | l :: ls => if p l then f l :: ls else l :: updateFirst p f ls

-- ─── Contradiction detection (findContradictions) ─────────────────────

/-- The per-learning loop body of `findContradictions`: does the existing
learning get contradicted by `newText`?  The four rules are checked in
source order with short-circuiting. -/
def contradicts (newText : String) (existing : Learning) : Bool :=
  if existing.archived then false else
  let newLower := newText.toLower
  let newCore := extractCore newText
  let oldCore := extractCore existing.text
  let oldLower := existing.text.toLower
  -- 1. "X instead of Y"
  (match findInstead newLower.toList with
   | some cap0 =>
     let replaced := dropTrailingPunct cap0
     wbOcc replaced oldCore.toList &&
       !containsLit (String.mk replaced ++ " instead") oldCore.toList
   | none => false) ||
  -- 2. Same tool category, different tool
  (match identifyTool oldCore, identifyTool newCore with
   | some oldTool, some newTool =>
     oldTool.2 = newTool.2 && oldTool.1 ≠ newTool.1
   | _, _ => false) ||
  -- 3. Style opposites
  areStyleOpposites oldLower newLower ||
  -- 4. Avoids ↔ Uses flip
  (match findAvoid oldLower.toList with
   | some cap => similarity (String.mk cap) newCore > 6/10
   | none => false) ||
  (match findAvoid newLower.toList with
   | some cap => similarity (String.mk cap) oldCore > 6/10
   | none => false)

/-- Source `findContradictions` from store.js (returns the contradicted rows). -/
def findContradictions (learnings : List Learning) (newText : String) :
    List Learning :=
  learnings.filter (contradicts newText)

-- ─── addCandidate ─────────────────────────────────────────────────────

/-- Predicate of the `alignedInferred` lookup in `addCandidate`. -/
def alignedPred (newCore : String) (l : Learning) : Bool :=
  !l.archived && l.inferred && decide (similarity (extractCore l.text) newCore > 7/10)

/-- Mutation applied to a matching inferred learning by `addCandidate`’s
alignment step. -/
def alignedUpd (x : Signal) (now : ℚ) (l : Learning) : Learning :=
  { l with inferred := false,
           confidence := max (l.confidence + 25/100) ACTIVATION_THRESHOLD,
           aligned_with := some x.text,
           aligned_at := some now,
           detection_method := "claude_observation_validated" }

/-- The duplicate test of `addCandidate`’s `existing` lookup. -/
def matchesExisting (x : Signal) (l : Learning) : Bool :=
  if l.archived then false else
  let newCore := extractCore x.text
  let existingCore := extractCore l.text
  let sameCore :=
    decide (existingCore = newCore) ||
    decide (l.text.toLower = x.text.toLower) ||
    decide (similarity existingCore newCore > 7/10)
  if !sameCore then false else
  if prefixContradicts (extractPrefixTag l.text) (extractPrefixTag x.text)
  then false else true

/-- Reinforcement step 1: counters, timestamp, confidence, decay weight. -/
def reinforceBase (now : ℚ) (l : Learning) : Learning :=
  { l with evidence_count := l.evidence_count + 1,
           last_reinforced := now,
           confidence := min 1 (l.confidence + 15/100),
           decay_weight := 1 }

/-- Reinforcement step 2: classification upgrade if the incoming signal is
deeper, keeping the longer text. -/
def classUpgrade (x : Signal) (l : Learning) : Learning :=
  match x.classification with
  | some c =>
    if isDeeper c l.classification then
      { l with classification := c,
               text := if x.text.length > l.text.length then x.text else l.text }
    else l
  | none => if isDeeper "" l.classification then { l with classification := "" } else l

/-- Reinforcement step 3: merge the incoming area into the accumulated
`areas` set (`existing.areas = existing.areas || [existing.area || "general"]`). -/
def areaMerge (x : Signal) (l : Learning) : Learning :=
  match x.area with
  | some a =>
    if a ≠ "" then
      let incl := match l.areas with
        | some asl => asl.contains a
        | none => false
      if !incl then
        let asl := match l.areas with
          | some asl => asl
          | none => [if l.area = "" then "general" else l.area]
        { l with areas := some (if asl.contains a then asl else asl ++ [a]) }
      else l
    else l
  | none => l

/-- The evidence record pushed by `addCandidate` (both branches). -/
def mkSignalEvidence (x : Signal) (now : ℚ) : Evidence :=
  { claude_said := ((x.evidence.map (·.claude_said)).join).getD "",
    user_said := ((x.evidence.map (·.user_said)).join).getD "",
    error_context := ((x.evidence.map (·.error_context)).join).getD "",
    detected_at := some now,
    detection_method := jsStrOrD x.detection_method "regex" }

/-- Reinforcement step 4: push the new evidence record, then keep the last
10 when the ring has overflowed. -/
def evidencePush (x : Signal) (now : ℚ) (l : Learning) : Learning :=
  let evs := l.evidence ++ [mkSignalEvidence x now]
  { l with evidence := if evs.length > 10 then evs.drop (evs.length - 10) else evs }

/-- The whole in-place mutation of a reinforced learning, in source order. -/
def reinforceUpd (x : Signal) (now : ℚ) (l : Learning) : Learning :=
  evidencePush x now (areaMerge x (classUpgrade x (reinforceBase now l)))

/-- The row created by `addCandidate` when no duplicate exists. -/
def mkCandidateEntry (x : Signal) (now : ℚ) (freshId : String) : Learning :=
  let cls := jsStrOrD x.classification "PREFERENCE"
  { id := freshId,
    text := x.text,
    confidence := startingConfidence x,
    evidence_count := 1,
    scope := jsStrOrD x.scope "repo",
    scope_key := (x.scope_key).getD "",
    classification := cls,
    area := jsStrOrD x.area "general",
    areas := some [jsStrOrD x.area "general"],
    first_seen := now,
    last_reinforced := now,
    decay_weight := 1,
    archived := false,
    promoted := false,
    detection_method := jsStrOrD x.detection_method "regex",
    evidence := [mkSignalEvidence x now] }

/-- Archive mutation applied to every contradicted learning. -/
def archiveContradicted (newText : String) (now : ℚ) (l : Learning) : Learning :=
  if contradicts newText l then
    { l with archived := true,
             archived_reason := some ("Superseded by: \"" ++ newText ++ "\""),
             archived_at := some now }
  else l

/-- Source `addCandidate` from store.js.  `now` is the current time in ms and
`freshId` the value `generateId()` would return. -/
def addCandidate (s : Store) (x : Signal) (now : ℚ) (freshId : String) : Store :=
  let newCore := extractCore x.text
  let ls1 := updateFirst (alignedPred newCore) (alignedUpd x now) s.learnings
  if ls1.any (matchesExisting x) then
    { s with learnings := updateFirst (matchesExisting x) (reinforceUpd x now) ls1 }
  else
    let ls2 := ls1.map (archiveContradicted x.text now)
    { s with learnings := ls2 ++ [mkCandidateEntry x now freshId] }

-- ─── Observation layer ────────────────────────────────────────────────

/-- Predicate of `addObservation`’s `existingRegular` lookup. -/
def obsRegularPred (newCore : String) (l : Learning) : Bool :=
  !l.archived && !l.inferred &&
    decide (similarity (extractCore l.text) newCore > 7/10)

/-- Predicate of `addObservation`’s `existingInferred` lookup. -/
def obsInferredPred (newCore : String) (l : Learning) : Bool :=
  !l.archived && l.inferred &&
    decide (similarity (extractCore l.text) newCore > 7/10)

/-- The inferred row created by `addObservation`. -/
def mkObsEntry (obs : Obs) (now : ℚ) (freshId : String) : Learning :=
  { id := freshId,
    text := obs.text,
    confidence := jsOrQ obs.confidence (20/100),
    evidence_count := 1,
    scope := jsStrOrD obs.scope "repo",
    classification := jsStrOrD obs.classification "PREFERENCE",
    area := jsStrOrD obs.area "general",
    areas := some [jsStrOrD obs.area "general"],
    first_seen := now,
    last_reinforced := now,
    decay_weight := 1,
    archived := false,
    promoted := false,
    inferred := true,
    observation_type := jsStrOrD obs.observation_type "project_observation",
    detection_method := "claude_observation",
    evidence := [{ observation := (obs.evidence_observation).getD "",
                   detected_at := some now }] }

/-- The "observation corroborates existing" mutation of `addObservation`. -/
def obsCorroborateUpd (l : Learning) : Learning :=
  { l with confidence := min 1 (l.confidence + 3/100),
           observation_corroborations := l.observation_corroborations + 1 }

/-- The "inferred reinforced" mutation of `addObservation`. -/
def obsReinforceUpd (now : ℚ) (l : Learning) : Learning :=
  { l with confidence := min (l.confidence + 5/100) (44/100),
           evidence_count := l.evidence_count + 1,
           last_reinforced := now }

/-- Source `addObservation` from store.js. -/
def addObservation (s : Store) (obs : Obs) (now : ℚ) (freshId : String) : Store :=
  let newCore := extractCore obs.text
  if s.learnings.any (obsRegularPred newCore) then
    { s with learnings :=
        updateFirst (obsRegularPred newCore) obsCorroborateUpd s.learnings }
  else if s.learnings.any (obsInferredPred newCore) then
    { s with learnings :=
        updateFirst (obsInferredPred newCore) (obsReinforceUpd now) s.learnings }
  else
    { s with learnings := s.learnings ++ [mkObsEntry obs now freshId] }

/-- Source `acceptObservation` from store.js: returns the JS return value and the
resulting persisted store. -/
def acceptObservation (s : Store) (id : String) (now : ℚ) :
    Option Learning × Store :=
  match s.learnings.find? (fun l => l.id = id) with
  | none => (none, s)
  | some l =>
    if !l.inferred || l.archived then (none, s)
    else
      let upd := fun l0 : Learning =>
        { l0 with inferred := false,
                  confidence := max (l0.confidence + 25/100) ACTIVATION_THRESHOLD,
                  accepted_at := some now,
                  detection_method := "claude_observation_accepted" }
      (some (upd l),
       { s with learnings := updateFirst (fun l0 => l0.id = id) upd s.learnings })

/-- Source `rejectObservation` from store.js. -/
def rejectObservation (s : Store) (id : String) (now : ℚ) :
    Option Learning × Store :=
  match s.learnings.find? (fun l => l.id = id) with
  | none => (none, s)
  | some l =>
    if !l.inferred || l.archived then (none, s)
    else
      let upd := fun l0 : Learning =>
        { l0 with archived := true,
                  archived_reason := some "Rejected by developer",
                  archived_at := some now }
      (some (upd l),
       { s with learnings := updateFirst (fun l0 => l0.id = id) upd s.learnings })

/-- Source `applyPassiveAccumulation` from store.js. -/
def applyPassiveAccumulation (s : Store) (now : ℚ) : Store :=
  { s with learnings := s.learnings.map (fun l =>
      if !l.inferred || l.archived || l.promoted then l
      else { l with confidence := min (l.confidence + 3/100) (44/100),
                    last_reinforced := now }) }

-- ─── Decay, promotion queries ─────────────────────────────────────────

/-- The per-learning body of `applyDecay`’s loop. -/
def decayLearning (now : ℚ) (l : Learning) : Learning :=
  if l.archived || l.promoted then l else
  let daysSince := (now - l.last_reinforced) / 86400000
  let l1 :=
    if daysSince > 30 then
      { l with decay_weight := l.decay_weight * (90/100),
               confidence := l.confidence * (l.decay_weight * (90/100)) }
    else if daysSince > 14 then
      { l with decay_weight := l.decay_weight * (95/100),
               confidence := l.confidence * (l.decay_weight * (95/100)) }
    else l
  if l1.confidence < ARCHIVE_THRESHOLD then
    { l1 with archived := true, archived_reason := some "Decayed below threshold" }
  else l1

/-- Source `applyDecay` from store.js. -/
def applyDecay (s : Store) (now : ℚ) : Store :=
  { s with learnings := s.learnings.map (decayLearning now) }

/-- Source `getPromotable` from store.js. -/
def getPromotable (s : Store) : List Learning :=
  s.learnings.filter (fun l =>
    !l.archived && !l.promoted &&
    decide (l.confidence ≥ PROMOTION_THRESHOLD) &&
    decide (l.evidence_count ≥ PROMOTION_MIN_EVIDENCE))

/-- Source `markPromoted` from store.js. -/
def markPromoted (s : Store) (ids : List String) (now : ℚ) : Store :=
  { s with learnings := s.learnings.map (fun l =>
      if ids.contains l.id then { l with promoted := true, promoted_at := some now }
      else l) }

-- ─── Cross-session analyzer (lib/cross-session.js) ────────────────────

/-- Fallback session estimation from evidence timestamps: entries more
than 30 minutes apart are counted as different sessions. -/
def estimateSessions : List Evidence → ℚ → Nat → List String → List String
  | [], _, _, acc => acc
  | ev :: evs, lastTime, idx, acc =>
    let time := (ev.detected_at).getD 0
    let idx2 := if time - lastTime > 30 * 60 * 1000 then idx + 1 else idx
    let key := "estimated_" ++ toString idx2
    let acc2 := if acc.contains key then acc else acc ++ [key]
    estimateSessions evs time idx2 acc2

/-- Source `getUniqueSessions` from cross-session.js. -/
def getUniqueSessions (l : Learning) : List String :=
  match l.session_ids with
  | some xs => xs
  | none => estimateSessions l.evidence 0 0 []

/-- The per-learning body of `detectCrossSessionPatterns`’s loop. -/
def crossStep (currentSessionId : String) (l : Learning) : Learning :=
  if l.archived || l.promoted then l else
  let sessions0 := getUniqueSessions l
  let sessions :=
    if l.touched_this_session then
      if sessions0.contains currentSessionId then sessions0
      else sessions0 ++ [currentSessionId]
    else sessions0
  let l := { l with touched_this_session := false, session_ids := some sessions }
  let crossCount := sessions.length
  let l :=
    if crossCount ≥ 3 && !l.cross_session_boosted then
      { l with confidence := min 1 (l.confidence + 10/100),
               cross_session_boosted := true,
               cross_session_count := crossCount }
    else l
  let l := if crossCount ≥ 3 then { l with cross_session_count := crossCount } else l
  let l :=
    if crossCount ≥ 4 && !jsTruthyStr l.classification_upgraded_from then
      if l.classification = "PREFERENCE" || l.classification = "BEHAVIORAL_GAP" then
        { l with classification_upgraded_from := some l.classification,
                 classification := "QUALITY_STANDARD" }
      else l
    else l
  let l :=
    if crossCount ≥ 5 && !l.deep_pattern_upgrade then
      if l.classification = "QUALITY_STANDARD" then
        { l with deep_pattern_upgrade := true,
                 classification_upgraded_from :=
                   some (jsStrOrD l.classification_upgraded_from l.classification),
                 classification := "THINKING_PATTERN",
                 confidence := min 1 (l.confidence + 5/100) }
      else l
    else l
  l

/-- Source `detectCrossSessionPatterns` from cross-session.js (the resulting
persisted store; the boolean `changed` result is not modelled). -/
def detectCrossSessionPatterns (s : Store) (currentSessionId : String) : Store :=
  { s with learnings := s.learnings.map (crossStep currentSessionId) }

-- ─── Consolidator gate (lib/skill-writer.js) ──────────────────────────

/-- Source `AFFINITY_GROUPS` from skill-writer.js: id, keywords, minCluster. -/
def AFFINITY_GROUPS : List (String × List String × Nat) :=
  [("composability",
    ["small", "function", "component", "extract", "single", "responsib",
     "break", "split", "modular", "composab", "reuse", "composition",
     "separate"], 2),
   ("user_empathy",
    ["user", "perspective", "experience", "empty state", "loading",
     "onboarding", "first-time", "confus", "label", "copy", "ux",
     "accessible", "a11y"], 2),
   ("defensive_design",
    ["error", "fail", "edge case", "what if", "what happens", "timeout",
     "retry", "fallback", "null", "undefined", "empty", "invalid",
     "validat"], 2),
   ("data_architecture",
    ["schema", "data model", "data first", "database", "migration", "type",
     "struct", "interface", "contract", "api", "endpoint"], 2),
   ("shipping_standards",
    ["test", "logging", "monitor", "observ", "coverage", "ci", "deploy",
     "done", "ship", "production", "ready"], 2),
   ("simplicity_pragmatism",
    ["simple", "yagni", "over-engineer", "premature", "prototype", "mvp",
     "iterate", "working version", "rough", "practical", "pragmat"], 2),
   ("system_thinking",
    ["scale", "performance", "growth", "distributed", "cache", "queue",
     "async", "concurren", "load", "bottleneck", "architect"], 2),
   ("code_clarity",
    ["readable", "naming", "convention", "consistent", "explicit",
     "implicit", "verbose", "concise", "comment", "document",
     "self-document"], 2)]

/-- Source `findClusters` from skill-writer.js: for each affinity group, the
active learnings whose lowercased text contains a group keyword, kept when
the cluster is large enough and the group was not already consolidated. -/
def findClusters (s : Store) : List (String × List Learning) :=
  let active := s.learnings.filter (fun l =>
    !l.archived && !l.promoted && decide (l.confidence ≥ ACTIVATION_THRESHOLD))
  (AFFINITY_GROUPS.map (fun g =>
    let members := active.filter (fun l =>
      g.2.1.any (fun kw => containsLit kw l.text.toLower.toList))
    if members.length ≥ g.2.2 &&
        !(active.any (fun l => l.consolidated_from_group = some g.1)) then
      [(g.1, members)]
    else [])).flatten

/-- Source `shouldConsolidate` from skill-writer.js.  Note that its `active`
filter keeps every non-archived, non-promoted learning, with no confidence
threshold and no exclusion of inferred rows. -/
def shouldConsolidate (s : Store) : Bool :=
  let active := s.learnings.filter (fun l => !l.archived && !l.promoted)
  if active.length < 6 then false
  else if jsTruthyStr s.meta.last_consolidation &&
      decide ((s.meta.total_sessions : ℤ) -
        ((s.meta.consolidation_session).getD 0 : ℤ) < 5) then false
  else decide (0 < (findClusters s).length)

-- ─── Transcript reader (extractMessage) ───────────────────────────────

/-- A content block of a transcript record. -/
structure Block where
  type : String := ""
  text : Option String := none
deriving DecidableEq

/-- The JSON shape of a record’s `content` (or `message.content`): a plain
string, a block array, or something else / absent. -/
inductive JContent where
  | str (s : String)
  | blocks (bs : List Block)
  | absent
deriving DecidableEq

/-- A transcript JSONL record (the fields `extractMessage` reads). -/
structure TEntry where
  role : Option String := none
  type : Option String := none
  content : JContent := .absent
  message : Option JContent := none
deriving DecidableEq

/-- The parsed message returned by `extractMessage`. -/
structure TMessage where
  role : String
  text : String
deriving DecidableEq

/-- JS code `role = entry.role || entry.type` followed by the normalization to
`"user"`/`"assistant"` (a missing or empty role yields `none`, as does an
unrecognized one). -/
def normalizeRole (e : TEntry) : Option String :=
  match jsOrStr e.role e.type with
  | some "human" => some "user"
  | some "user" => some "user"
  | some "assistant" => some "assistant"
  | _ => none

/-- Join the text blocks of a block array (`textBlocks.map(b => b.text).join("\n")`,
keeping only blocks with `type === "text"` and truthy `text`). -/
def joinTextBlocks (bs : List Block) : String :=
  String.intercalate "\n"
    ((bs.filter (fun b => b.type = "text" && jsTruthyStr b.text)).map
      (fun b => (b.text).getD ""))

/-- The text-extraction branch chain of `extractMessage`. -/
def extractText (e : TEntry) : String :=
  match e.content with
  | .str s => s
  | .blocks bs => joinTextBlocks bs
  | .absent =>
    match e.message with
    | some (.str s) => s
    | some (.blocks bs) => joinTextBlocks bs
    | _ => ""

/-- Source `extractMessage` from the transcript reader. -/
def extractMessage (e : TEntry) : Option TMessage :=
  match normalizeRole e with
  | none => none
  | some r =>
    let text := extractText e
    if text = "" || (jsTrimStr text).length < 3 then none
    else some { role := r, text := jsTrimStr text }

-- ─── Helper lemmas ────────────────────────────────────────────────────

theorem updateFirst_map_eq {α : Type} {g : Learning → α} {p : Learning → Bool}
    {f : Learning → Learning} (hf : ∀ l, g (f l) = g l) :
    ∀ ls : List Learning, (updateFirst p f ls).map g = ls.map g := by
  intro ls
  induction ls with
  | nil => rfl
  | cons l ls ih =>
    by_cases hp : p l
    · simp [updateFirst, hp, hf]
    · simp [updateFirst, hp, ih]

theorem updateFirst_any_eq {q p : Learning → Bool} {f : Learning → Learning}
    (hq : ∀ l, q (f l) = q l) :
    ∀ ls : List Learning, (updateFirst p f ls).any q = ls.any q := by
  intro ls
  induction ls with
  | nil => rfl
  | cons l ls ih =>
    by_cases hp : p l
    · simp [updateFirst, hp, hq]
    · simp [updateFirst, hp, ih]

theorem updateFirst_forall {P : Learning → Prop} {p : Learning → Bool}
    {f : Learning → Learning} :
    ∀ ls : List Learning, (∀ l ∈ ls, P l) → (∀ l ∈ ls, p l = true → P (f l)) →
    ∀ l2 ∈ updateFirst p f ls, P l2 := by
  intro ls
  induction ls with
  | nil => intro _ _ l2 h2; cases h2
  | cons l ls ih =>
    intro h hf l2 h2
    by_cases hp : p l
    · rw [updateFirst, if_pos hp, List.mem_cons] at h2
      rcases h2 with h2 | h2
      · rw [h2]; exact hf l (by simp) hp
      · exact h l2 (by simp [h2])
    · rw [updateFirst, if_neg hp, List.mem_cons] at h2
      rcases h2 with h2 | h2
      · rw [h2]; exact h l (by simp)
      · exact ih (fun a ha => h a (by simp [ha]))
          (fun a ha hpa => hf a (by simp [ha]) hpa) l2 h2

theorem classUpgrade_archived (x : Signal) (l : Learning) :
    (classUpgrade x l).archived = l.archived := by
  unfold classUpgrade; cases x.classification <;> dsimp only <;> split <;> rfl

theorem classUpgrade_archived_reason (x : Signal) (l : Learning) :
    (classUpgrade x l).archived_reason = l.archived_reason := by
  unfold classUpgrade; cases x.classification <;> dsimp only <;> split <;> rfl

theorem classUpgrade_evidence_count (x : Signal) (l : Learning) :
    (classUpgrade x l).evidence_count = l.evidence_count := by
  unfold classUpgrade; cases x.classification <;> dsimp only <;> split <;> rfl

theorem classUpgrade_confidence (x : Signal) (l : Learning) :
    (classUpgrade x l).confidence = l.confidence := by
  unfold classUpgrade; cases x.classification <;> dsimp only <;> split <;> rfl

theorem classUpgrade_decay_weight (x : Signal) (l : Learning) :
    (classUpgrade x l).decay_weight = l.decay_weight := by
  unfold classUpgrade; cases x.classification <;> dsimp only <;> split <;> rfl

theorem areaMerge_archived (x : Signal) (l : Learning) :
    (areaMerge x l).archived = l.archived := by
  unfold areaMerge; cases x.area <;> dsimp only <;> split_ifs <;> rfl

theorem areaMerge_archived_reason (x : Signal) (l : Learning) :
    (areaMerge x l).archived_reason = l.archived_reason := by
  unfold areaMerge; cases x.area <;> dsimp only <;> split_ifs <;> rfl

theorem areaMerge_evidence_count (x : Signal) (l : Learning) :
    (areaMerge x l).evidence_count = l.evidence_count := by
  unfold areaMerge; cases x.area <;> dsimp only <;> split_ifs <;> rfl

theorem areaMerge_confidence (x : Signal) (l : Learning) :
    (areaMerge x l).confidence = l.confidence := by
  unfold areaMerge; cases x.area <;> dsimp only <;> split_ifs <;> rfl

theorem areaMerge_decay_weight (x : Signal) (l : Learning) :
    (areaMerge x l).decay_weight = l.decay_weight := by
  unfold areaMerge; cases x.area <;> dsimp only <;> split_ifs <;> rfl

theorem evidencePush_archived (x : Signal) (now : ℚ) (l : Learning) :
    (evidencePush x now l).archived = l.archived := rfl

theorem evidencePush_archived_reason (x : Signal) (now : ℚ) (l : Learning) :
    (evidencePush x now l).archived_reason = l.archived_reason := rfl

theorem evidencePush_evidence_count (x : Signal) (now : ℚ) (l : Learning) :
    (evidencePush x now l).evidence_count = l.evidence_count := rfl

theorem evidencePush_confidence (x : Signal) (now : ℚ) (l : Learning) :
    (evidencePush x now l).confidence = l.confidence := rfl

theorem evidencePush_decay_weight (x : Signal) (now : ℚ) (l : Learning) :
    (evidencePush x now l).decay_weight = l.decay_weight := rfl

-- ─── Claim C7: contradiction archival scenario ────────────────────────

/-- The store of Scenario C: a single non-archived learning "Uses jest" at
confidence 0.70. -/
def c7Store : Store :=
  ⟨[{ id := "jest1", text := "Uses jest", confidence := 7/10,
      evidence_count := 1 }], {}⟩

/-- The inserted signal of Scenario C. -/
def c7Signal : Signal := { text := "Uses vitest", confidence := some (35/100) }

/-- C7: inserting "Uses vitest" (conf 0.35) into a store holding only
"Uses jest" (conf 0.70) leaves exactly one non-archived learning, with text
"Uses vitest"; the jest learning is archived and its archived_reason
contains "Superseded by" (same tool category, different tool). -/
theorem c7_contradiction_archival :
    ((addCandidate c7Store c7Signal 0 "vit1").learnings.map
        (fun l => (l.text, l.archived, l.archived_reason)))
      = [("Uses jest", true, some "Superseded by: \"Uses vitest\""),
         ("Uses vitest", false, none)] ∧
    (((addCandidate c7Store c7Signal 0 "vit1").learnings.filter
        (fun l => !l.archived)).map (fun l => l.text)) = ["Uses vitest"] ∧
    ((addCandidate c7Store c7Signal 0 "vit1").learnings.all
        (fun l => !l.archived ||
          containsLit "Superseded by" ((l.archived_reason.getD "").toList))) = true := by
  refine ⟨?_, ?_, ?_⟩ <;> with_unfolding_all exact rfl

-- ─── Claim C8: transcript reader length cutoff ────────────────────────

/-- C8 counterexample: a record whose trimmed text has exactly 3
characters is kept (`text.trim().length < 3` drops only texts of at most 2
characters), refuting "at most 3 characters ... dropped". -/
theorem c8_three_char_kept_cx :
    extractMessage { role := some "user", content := .str "abc" }
      = some { role := "user", text := "abc" } := by
  with_unfolding_all exact rfl

/-- C8 (amended): a transcript record is dropped by `extractMessage`
exactly when its role does not normalize to user/assistant or the trimmed
extracted text has fewer than 3 characters; records with 3 or more
characters (and a recognized role) are kept. -/
theorem c8_short_records_dropped (e : TEntry) :
    extractMessage e = none ↔
      normalizeRole e = none ∨ (jsTrimStr (extractText e)).length < 3 := by
  unfold extractMessage
  cases hr : normalizeRole e with
  | none => simp
  | some r =>
    simp only [hr, Option.some.injEq, reduceCtorEq]
    constructor
    · intro h
      by_cases ht : extractText e = "" ∨ (jsTrimStr (extractText e)).length < 3
      · rcases ht with ht | ht
        · right; rw [ht]; with_unfolding_all exact of_decide_eq_true rfl
        · right; exact ht
      · exfalso
        rw [if_neg (by simpa using ht)] at h
        exact Option.some_ne_none _ h
    · intro h
      rcases h with h | h
      · cases h
      · rw [if_pos (by simp [h])]

-- ─── Claim C3: cross-session bookkeeping ──────────────────────────────

/-- The signal of the C3 failing input. -/
def c3Signal : Signal := { text := "Uses pnpm", confidence := some (35/100) }

/-- The C3 failing input: an empty store, `addCandidate` twice during
session "s1" (the second call reinforces), then the session-end analyzer. -/
def c3Store : Store :=
  addCandidate (addCandidate emptyStore c3Signal 0 "a") c3Signal 0 "b"

/-- C3: after the analyzer runs with the current session id "s1", the
reinforced learning’s `session_ids` holds only the evidence-timestamp
estimate — "s1" was never added, because `addCandidate` never marks the
touch that `detectCrossSessionPatterns` looks for (`markSessionTouch` is
documented as "Called by addCandidate when reinforcing an existing
learning" but has no caller). -/
theorem c3_session_id_not_added :
    ((detectCrossSessionPatterns c3Store "s1").learnings.map
        (fun l => l.session_ids)) = [some ["estimated_0"]] ∧
    ((detectCrossSessionPatterns c3Store "s1").learnings.all
        (fun l => !((l.session_ids.getD []).contains "s1"))) = true := by
  refine ⟨?_, ?_⟩ <;> with_unfolding_all exact rfl

-- ─── Claim C1: the inferred confidence cap ────────────────────────────

/-- Invariant I4: every inferred learning sits at or below the 0.44 cap. -/
def InferredCap (s : Store) : Prop :=
  ∀ l ∈ s.learnings, l.inferred = true → l.confidence ≤ 44/100

/-- C1 counterexample: `addObservation` with a supplied starting
confidence of 0.9 creates an inferred row at confidence 0.9 > 0.44:
the invariant does not hold for arbitrary observation inputs. -/
theorem c1_inferred_cap_cx :
    ((addObservation emptyStore { text := "x", confidence := some (9/10) }
        0 "i1").learnings.all
      (fun l => !l.inferred || decide (l.confidence ≤ 44/100))) = false := by
  with_unfolding_all exact rfl

/-- One step of the claimed operation sequence: an `addObservation` call or
an `applyPassiveAccumulation` call. -/
inductive ObsOp where
  | observe (o : Obs) (now : ℚ) (freshId : String)
  | passive (now : ℚ)

/-- Apply one step to the store. -/
def applyObsOp (s : Store) : ObsOp → Store
  | .observe o now freshId => addObservation s o now freshId
  | .passive now => applyPassiveAccumulation s now

/-- The supplied starting confidence of an observation as `addObservation`
computes it (`obs.confidence || 0.20`). -/
def obsStartConfidence (o : Obs) : ℚ := jsOrQ o.confidence (20/100)

/-- An operation is cap-respecting when any observation it carries starts
at or below 0.44. -/
def obsOpOk : ObsOp → Prop
  | .observe o _ _ => obsStartConfidence o ≤ 44/100
  | .passive _ => True

theorem addObservation_inferred_cap {s : Store} {o : Obs} {now : ℚ}
    {freshId : String} (hs : InferredCap s)
    (ho : obsStartConfidence o ≤ 44/100) :
    InferredCap (addObservation s o now freshId) := by
  unfold addObservation
  by_cases h1 : s.learnings.any (obsRegularPred (extractCore o.text))
  · simp only [h1, if_true]
    intro l hl
    refine updateFirst_forall s.learnings hs ?_ l hl
    intro a ha hpa hai
    exfalso
    have hinf : a.inferred = false := by
      simp only [obsRegularPred, Bool.and_eq_true, Bool.not_eq_true'] at hpa
      exact hpa.1.2
    rw [show (obsCorroborateUpd a).inferred = a.inferred from rfl, hinf] at hai
    cases hai
  · by_cases h2 : s.learnings.any (obsInferredPred (extractCore o.text))
    · simp only [h1, h2, if_true, if_false, Bool.false_eq_true]
      intro l hl
      refine updateFirst_forall s.learnings hs ?_ l hl
      intro a _ _ _
      simp only [obsReinforceUpd]
      exact min_le_right _ _
    · simp only [h1, h2, if_false, Bool.false_eq_true]
      intro l hl
      rcases List.mem_append.mp hl with hl | hl
      · exact hs l hl
      · have : l = mkObsEntry o now freshId := by simpa using hl
        subst this
        intro _
        exact ho

theorem applyPassiveAccumulation_inferred_cap {s : Store} {now : ℚ}
    (hs : InferredCap s) : InferredCap (applyPassiveAccumulation s now) := by
  unfold applyPassiveAccumulation
  intro l hl
  rcases List.mem_map.mp hl with ⟨a, ha, rfl⟩
  by_cases hc : (!a.inferred || a.archived || a.promoted) = true
  · rw [if_pos hc]; exact hs a ha
  · rw [if_neg hc]
    intro _
    exact min_le_right _ _

/-- C1 (amended): provided every `addObservation` call supplies a starting
confidence of at most 0.44 (the default 0.20 included), every inferred
learning’s confidence stays ≤ 0.44 across any sequence of `addObservation`
and `applyPassiveAccumulation` calls.  (Unrestricted inputs break the
invariant: see the counterexample, where a supplied 0.9 is stored
unclamped on the newly created inferred row.) -/
theorem c1_inferred_cap (ops : List ObsOp) (s : Store) (hs : InferredCap s)
    (hops : ∀ op ∈ ops, obsOpOk op) :
    InferredCap (ops.foldl applyObsOp s) := by
  induction ops generalizing s with
  | nil => exact hs
  | cons op ops ih =>
    rw [List.foldl_cons]
    refine ih (applyObsOp s op) ?_ (fun o ho => hops o (by simp [ho]))
    cases op with
    | observe o now freshId =>
      have h := hops (ObsOp.observe o now freshId) (List.mem_cons_self _ _)
      exact addObservation_inferred_cap hs h
    | passive now => exact applyPassiveAccumulation_inferred_cap hs

/-- Witness for the amended C1 at a concrete run: a default-confidence
observation followed by a passive-accumulation pass on the empty store. -/
theorem c1_inferred_cap_witness :
    InferredCap (([ObsOp.observe { text := "Uses pnpm" } 0 "i1",
                   ObsOp.passive 1]).foldl applyObsOp emptyStore) := by
  refine c1_inferred_cap _ emptyStore ?_ ?_
  · intro l hl; cases hl
  · intro op hop
    rcases List.mem_cons.mp hop with h | h
    · subst h
      show obsStartConfidence { text := "Uses pnpm" } ≤ 44/100
      with_unfolding_all exact of_decide_eq_true rfl
    · rcases List.mem_cons.mp h with h | h
      · subst h; trivial
      · cases h

-- ─── Claim C2: applyDecay idempotence ─────────────────────────────────

/-- C2 counterexample fixture: one learning 40 days past reinforcement. -/
def c2Store : Store :=
  ⟨[{ id := "d1", text := "x", confidence := 1/2, evidence_count := 1,
      last_reinforced := 0 }], {}⟩

/-- The fixed timestamp of the C2 counterexample (40 days in ms). -/
def c2Now : ℚ := 40 * 86400000

/-- C2 counterexample: running `applyDecay` twice at the same timestamp is
not the same as running it once — the second run multiplies `decay_weight`
and `confidence` again (0.5 → 0.45 after one run, 0.3645 after two). -/
theorem c2_decay_not_idempotent_cx :
    applyDecay (applyDecay c2Store c2Now) c2Now ≠ applyDecay c2Store c2Now ∧
    ((applyDecay c2Store c2Now).learnings.map (fun l => l.confidence))
      = [45/100] ∧
    ((applyDecay (applyDecay c2Store c2Now) c2Now).learnings.map
        (fun l => l.confidence)) = [3645/10000] := by
  set_option maxRecDepth 4000 in
  refine ⟨?_, ?_, ?_⟩ <;> with_unfolding_all exact of_decide_eq_true rfl

theorem decayLearning_nodecay (now : ℚ) (l : Learning)
    (ha : (l.archived || l.promoted) = false)
    (h14 : (now - l.last_reinforced) / 86400000 ≤ 14) :
    decayLearning now l =
      if l.confidence < ARCHIVE_THRESHOLD then
        { l with archived := true,
                 archived_reason := some "Decayed below threshold" }
      else l := by
  have h30 : ¬((now - l.last_reinforced) / 86400000 > 30) := by linarith
  have h14' : ¬((now - l.last_reinforced) / 86400000 > 14) := by linarith
  unfold decayLearning
  rw [if_neg (by simp [ha])]
  dsimp only
  rw [if_neg h30, if_neg h14']

theorem decayLearning_idem (now : ℚ) (l : Learning)
    (h : l.archived = true ∨ l.promoted = true ∨
         (now - l.last_reinforced) / 86400000 ≤ 14) :
    decayLearning now (decayLearning now l) = decayLearning now l := by
  by_cases ha : (l.archived || l.promoted) = true
  · have hl : decayLearning now l = l := by unfold decayLearning; rw [if_pos ha]
    rw [hl, hl]
  · have ha' : (l.archived || l.promoted) = false := by simpa using ha
    have h14 : (now - l.last_reinforced) / 86400000 ≤ 14 := by
      rcases h with h | h | h
      · exfalso; rw [h] at ha'; simp at ha'
      · exfalso; rw [h] at ha'; simp at ha'
      · exact h
    rw [decayLearning_nodecay now l ha' h14]
    by_cases hc : l.confidence < ARCHIVE_THRESHOLD
    · rw [if_pos hc]
      unfold decayLearning
      rw [if_pos (by simp)]
    · rw [if_neg hc]
      rw [decayLearning_nodecay now l ha' h14, if_neg hc]

/-- C2 (amended): `applyDecay` at a fixed timestamp is idempotent on
stores in which every learning is terminal (archived or promoted) or at
most 14 days past its last reinforcement.  In general a second run at the
same timestamp decays non-terminal learnings beyond the 14-day window a
second time (see the counterexample). -/
theorem c2_decay_idempotent (s : Store) (now : ℚ)
    (h : ∀ l ∈ s.learnings, l.archived = true ∨ l.promoted = true ∨
         (now - l.last_reinforced) / 86400000 ≤ 14) :
    applyDecay (applyDecay s now) now = applyDecay s now := by
  unfold applyDecay
  congr 1
  rw [List.map_map]
  exact List.map_congr_left (fun l hl => decayLearning_idem now l (h l hl))

/-- Witness: a store with one freshly-reinforced learning (0 days) is a
fixpoint of a second decay run. -/
theorem c2_decay_idempotent_witness :
    applyDecay (applyDecay
      (⟨[{ id := "w", text := "w", confidence := 1/2, evidence_count := 1,
           last_reinforced := 0 }], {}⟩ : Store) 0) 0
    = applyDecay
      (⟨[{ id := "w", text := "w", confidence := 1/2, evidence_count := 1,
           last_reinforced := 0 }], {}⟩ : Store) 0 :=
  c2_decay_idempotent _ 0 (by with_unfolding_all exact of_decide_eq_true rfl)

-- ─── Claim C6: shouldConsolidate ──────────────────────────────────────

/-- Modelled from the spec (glossary): an **active** learning is "a
non-terminal, non-inferred learning with confidence ≥ 0.45".  This is the
spec-side notion the claim uses; compare it with the filter actually used
by `shouldConsolidate`. -/
def specActive (l : Learning) : Bool :=
  !l.archived && !l.promoted && !l.inferred &&
    decide (l.confidence ≥ ACTIVATION_THRESHOLD)

/-- C6 counterexample fixture: two clusterable learnings at 0.5 and four
below the activation threshold, nothing consolidated yet. -/
def c6Store : Store :=
  ⟨[{ id := "1", text := "Add test coverage", confidence := 1/2,
      evidence_count := 1 },
    { id := "2", text := "tests required before deploy", confidence := 1/2,
      evidence_count := 1 },
    { id := "3", text := "zzz", confidence := 1/5, evidence_count := 1 },
    { id := "4", text := "zzz", confidence := 1/5, evidence_count := 1 },
    { id := "5", text := "zzz", confidence := 1/5, evidence_count := 1 },
    { id := "6", text := "zzz", confidence := 1/5, evidence_count := 1 }], {}⟩

/-- C6 counterexample: `shouldConsolidate` returns true on a store with
only 2 active learnings in the spec’s sense (< 6) — its own count keeps
every non-archived, non-promoted learning regardless of confidence or the
inferred flag, so the claimed "at least 6 active learnings" condition does
not hold. -/
theorem c6_should_consolidate_cx :
    shouldConsolidate c6Store = true ∧
    (c6Store.learnings.filter specActive).length = 2 := by
  refine ⟨?_, ?_⟩ <;> with_unfolding_all exact of_decide_eq_true rfl

/-- C6 (amended): `shouldConsolidate` returns true iff there are at least
6 non-archived, non-promoted learnings (with no confidence threshold and
no exclusion of inferred rows), AND no consolidation has been recorded or
at least 5 sessions have elapsed since the last one, AND `findClusters`
returns a non-empty list. -/
theorem c6_should_consolidate (s : Store) :
    shouldConsolidate s = true ↔
      6 ≤ (s.learnings.filter (fun l => !l.archived && !l.promoted)).length ∧
      (jsTruthyStr s.meta.last_consolidation = false ∨
        5 ≤ (s.meta.total_sessions : ℤ) -
          ((s.meta.consolidation_session).getD 0 : ℤ)) ∧
      findClusters s ≠ [] := by
  unfold shouldConsolidate
  by_cases h1 :
      (s.learnings.filter (fun l => !l.archived && !l.promoted)).length < 6
  · rw [if_pos h1]
    simp only [Bool.false_eq_true, false_iff]
    intro hcon
    omega
  · rw [if_neg h1]
    by_cases h2 : (jsTruthyStr s.meta.last_consolidation &&
        decide ((s.meta.total_sessions : ℤ) -
          ((s.meta.consolidation_session).getD 0 : ℤ) < 5)) = true
    · rw [if_pos h2]
      simp only [Bool.and_eq_true, decide_eq_true_eq] at h2
      simp only [Bool.false_eq_true, false_iff]
      intro hcon
      rcases hcon.2.1 with hf | hf
      · rw [h2.1] at hf; cases hf
      · omega
    · rw [if_neg h2]
      simp only [Bool.and_eq_true, decide_eq_true_eq, not_and_or,
        Bool.not_eq_true, not_lt] at h2
      constructor
      · intro hcl
        refine ⟨by omega, h2, ?_⟩
        intro hnil
        rw [decide_eq_true_eq] at hcl
        rw [hnil] at hcl
        simp at hcl
      · intro hcon
        rw [decide_eq_true_eq]
        have := hcon.2.2
        cases hfc : findClusters s with
        | nil => exact absurd hfc this
        | cons a as => simp [hfc]

-- ─── Claim C10: accept/reject precondition guard ──────────────────────

/-- C10: when the precondition fails — no learning with the id exists, or
the found learning is not inferred, or it is archived — both
`acceptObservation` and `rejectObservation` return null and leave the
persisted learning set unchanged.  (Contrapositive: they mutate the store
only when a non-archived inferred learning with that id exists.) -/
theorem c10_observation_guard (s : Store) (id : String) (now : ℚ)
    (h : match s.learnings.find? (fun l0 => l0.id = id) with
         | none => True
         | some l => l.inferred = false ∨ l.archived = true) :
    acceptObservation s id now = (none, s) ∧
    rejectObservation s id now = (none, s) := by
  unfold acceptObservation rejectObservation
  cases hf : s.learnings.find? (fun l0 => l0.id = id) with
  | none => exact ⟨rfl, rfl⟩
  | some l =>
    rw [hf] at h
    have hcond : (!l.inferred || l.archived) = true := by
      rcases h with h | h <;> simp [h]
    dsimp only
    rw [if_pos hcond, if_pos hcond]
    exact ⟨rfl, rfl⟩

/-- The C10 witness store: one learning with the requested id that is not
inferred. -/
def c10wStore : Store :=
  ⟨[{ id := "q1", text := "Uses pnpm", confidence := 1/2,
      evidence_count := 1 }], {}⟩

/-- Witness for C10: on `c10wStore` the guard fails (the learning is not
inferred), so both calls return null and change nothing. -/
theorem c10_observation_guard_witness :
    acceptObservation c10wStore "q1" 0 = (none, c10wStore) ∧
    rejectObservation c10wStore "q1" 0 = (none, c10wStore) :=
  c10_observation_guard c10wStore "q1" 0 (by
    rw [show List.find? (fun l0 => decide (l0.id = "q1")) c10wStore.learnings
        = some { id := "q1", text := "Uses pnpm", confidence := 1/2,
                 evidence_count := 1 } from by with_unfolding_all exact rfl]
    exact Or.inl rfl)

-- ─── Claim C9: reinforcement branch runs no contradiction scan ────────

/-- C9: when `addCandidate` finds a duplicate (the reinforcement branch),
no contradiction scan runs: every learning’s `archived` flag and
`archived_reason` are exactly what they were before the call.  Archival by
contradiction can only happen on the branch that creates a new row. -/
theorem c9_reinforce_frame (s : Store) (x : Signal) (now : ℚ) (freshId : String)
    (h : s.learnings.any (matchesExisting x) = true) :
    ((addCandidate s x now freshId).learnings.map
        (fun l => (l.archived, l.archived_reason)))
      = s.learnings.map (fun l => (l.archived, l.archived_reason)) := by
  unfold addCandidate
  have hA : ∀ l, matchesExisting x (alignedUpd x now l) = matchesExisting x l :=
    fun l => rfl
  have hany : (updateFirst (alignedPred (extractCore x.text)) (alignedUpd x now)
      s.learnings).any (matchesExisting x) = true := by
    rw [updateFirst_any_eq hA]; exact h
  have hgA : ∀ l : Learning,
      (fun l0 : Learning => (l0.archived, l0.archived_reason)) (alignedUpd x now l)
        = (fun l0 : Learning => (l0.archived, l0.archived_reason)) l :=
    fun l => rfl
  have hgR : ∀ l : Learning,
      (fun l0 : Learning => (l0.archived, l0.archived_reason)) (reinforceUpd x now l)
        = (fun l0 : Learning => (l0.archived, l0.archived_reason)) l := by
    intro l
    simp only [reinforceUpd, evidencePush_archived, evidencePush_archived_reason,
      areaMerge_archived, areaMerge_archived_reason, classUpgrade_archived,
      classUpgrade_archived_reason]
    rfl
  dsimp only
  rw [if_pos hany]
  dsimp only
  rw [updateFirst_map_eq hgR, updateFirst_map_eq hgA]

/-- The C9 witness store: one non-archived learning that duplicates the
witness signal’s text, so the reinforcement branch is taken. -/
def c9wStore : Store :=
  ⟨[{ id := "p1", text := "Uses pnpm", confidence := 1/2,
      evidence_count := 1 }], {}⟩

/-- The C9 witness signal. -/
def c9wSignal : Signal := { text := "Uses pnpm", confidence := some (35/100) }

/-- Witness for C9 at a concrete reinforcement. -/
theorem c9_reinforce_frame_witness :
    ((addCandidate c9wStore c9wSignal 0 "w").learnings.map
        (fun l => (l.archived, l.archived_reason)))
      = c9wStore.learnings.map (fun l => (l.archived, l.archived_reason)) :=
  c9_reinforce_frame c9wStore c9wSignal 0 "w"
    (by with_unfolding_all exact rfl)

-- ─── Claim C4: addCandidate applied twice on an empty store ───────────

/-- C4: for every signal `x`, two `addCandidate x` calls on an initially
empty store converge to exactly one non-archived learning with
`evidence_count = 2`, `confidence = min(1, starting confidence + 0.15)`
and `decay_weight = 1`. -/
theorem c4_add_twice (x : Signal) (t1 t2 : ℚ) (id1 id2 : String) :
    ((addCandidate (addCandidate emptyStore x t1 id1) x t2 id2).learnings.map
        (fun l => (l.archived, l.evidence_count, l.confidence, l.decay_weight)))
      = [(false, 2, min 1 (startingConfidence x + 15/100), 1)] := by
  have h1 : addCandidate emptyStore x t1 id1
      = ⟨[mkCandidateEntry x t1 id1], {}⟩ := rfl
  have hm : matchesExisting x (mkCandidateEntry x t1 id1) = true := by
    unfold matchesExisting
    simp [mkCandidateEntry, prefixContradicts]
  rw [h1]
  unfold addCandidate
  dsimp only
  rw [show updateFirst (alignedPred (extractCore x.text)) (alignedUpd x t2)
        [mkCandidateEntry x t1 id1] = [mkCandidateEntry x t1 id1] from rfl]
  rw [show ([mkCandidateEntry x t1 id1].any (matchesExisting x)) = true from by
        simp [hm]]
  rw [if_pos rfl]
  dsimp only
  rw [show updateFirst (matchesExisting x) (reinforceUpd x t2)
        [mkCandidateEntry x t1 id1]
      = [reinforceUpd x t2 (mkCandidateEntry x t1 id1)] from by
        rw [updateFirst, if_pos hm]]
  have ha : (reinforceUpd x t2 (mkCandidateEntry x t1 id1)).archived = false := by
    simp only [reinforceUpd, evidencePush_archived, areaMerge_archived,
      classUpgrade_archived]
    rfl
  have he : (reinforceUpd x t2 (mkCandidateEntry x t1 id1)).evidence_count = 2 := by
    simp only [reinforceUpd, evidencePush_evidence_count,
      areaMerge_evidence_count, classUpgrade_evidence_count]
    rfl
  have hc : (reinforceUpd x t2 (mkCandidateEntry x t1 id1)).confidence
      = min 1 (startingConfidence x + 15/100) := by
    simp only [reinforceUpd, evidencePush_confidence, areaMerge_confidence,
      classUpgrade_confidence]
    rfl
  have hd : (reinforceUpd x t2 (mkCandidateEntry x t1 id1)).decay_weight = 1 := by
    simp only [reinforceUpd, evidencePush_decay_weight, areaMerge_decay_weight,
      classUpgrade_decay_weight]
    rfl
  simp only [List.map_cons, List.map_nil, ha, he, hc, hd]

-- ─── Claim C5: getPromotable ──────────────────────────────────────────

/-- C5 (amended): everything `getPromotable` returns is non-archived,
non-promoted, with confidence ≥ 0.80 and evidence_count ≥ 4 — in every
store state, reachable or not.  The filter does *not* exclude inferred
learnings (see the counterexample, which reaches a store whose promotable
set contains an inferred row through store-API calls alone). -/
theorem c5_promotable_subset (s : Store) (l : Learning)
    (h : l ∈ getPromotable s) :
    l.archived = false ∧ l.promoted = false ∧
    l.confidence ≥ PROMOTION_THRESHOLD ∧
    l.evidence_count ≥ PROMOTION_MIN_EVIDENCE := by
  unfold getPromotable at h
  rw [List.mem_filter] at h
  have hb := h.2
  simp only [Bool.and_eq_true, Bool.not_eq_true', decide_eq_true_eq] at hb
  obtain ⟨⟨⟨ha, hp⟩, hc⟩, he⟩ := hb
  exact ⟨ha, hp, hc, he⟩

/-- The C5 witness store: one learning that meets the promotion filter. -/
def c5wStore : Store :=
  ⟨[{ id := "w1", text := "w", confidence := 1, evidence_count := 5 }], {}⟩

/-- Witness for the amended C5 at a concrete promotable learning. -/
theorem c5_promotable_subset_witness :
    ({ id := "w1", text := "w", confidence := 1,
       evidence_count := 5 } : Learning).archived = false ∧
    ({ id := "w1", text := "w", confidence := 1,
       evidence_count := 5 } : Learning).promoted = false ∧
    ({ id := "w1", text := "w", confidence := 1,
       evidence_count := 5 } : Learning).confidence ≥ PROMOTION_THRESHOLD ∧
    ({ id := "w1", text := "w", confidence := 1,
       evidence_count := 5 } : Learning).evidence_count ≥ PROMOTION_MIN_EVIDENCE :=
  c5_promotable_subset c5wStore _
    (by with_unfolding_all exact of_decide_eq_true rfl)

/-- Decoy observations for the C5 counterexample: inferred rows whose core
overlaps the later signal’s core by more than 0.7 Jaccard but overlaps the
target and each other by at most 0.7. -/
def c5DecoyObs (j : String) : Obs :=
  { text := "Avoids a b c d e x" ++ j ++ " y" ++ j }

/-- The target observation: stored unclamped at confidence 0.9. -/
def c5TargetObs : Obs :=
  { text := "Uses a b c d e t1 t2", confidence := some (9/10) }

/-- The reinforcing signal of the C5 counterexample. -/
def c5Signal : Signal := { text := "Uses a b c d e", confidence := some (35/100) }

/-- The C5 counterexample store, reached from the empty store through
store-API calls only: three decoy observations, the 0.9-confidence target
observation, then three `addCandidate` calls.  Each call validates one
decoy (the alignment step picks the first inferred match) and then
reinforces the target through the duplicate branch — whose prefix check
skips the "Avoids"-decoys — without ever clearing the target’s `inferred`
flag, driving it to confidence 1 and evidence_count 4 while inferred. -/
def c5Store : Store :=
  addCandidate (addCandidate (addCandidate
    (addObservation (addObservation (addObservation (addObservation
      emptyStore (c5DecoyObs "1") 0 "d1") (c5DecoyObs "2") 0 "d2")
      (c5DecoyObs "3") 0 "d3") c5TargetObs 0 "t")
    c5Signal 0 "a1") c5Signal 0 "a2") c5Signal 0 "a3"

/-- C5 counterexample: in the reachable store `c5Store`, `getPromotable`
returns exactly the target learning, and it is still inferred — refuting
the claimed "not inferred" property of the promotion set. -/
theorem c5_promotable_inferred_cx :
    ((getPromotable c5Store).map (fun l => (l.id, l.inferred))) = [("t", true)] := by
  with_unfolding_all exact rfl
